import Mathlib

/-
Verification development for the move-field refactoring engine
(refactorings/move_field.py).  The Python source is shallowly embedded:
listener callbacks become pure functions over an explicit listener state,
the token-stream rewriter becomes a list of queued rewrite operations, and
the project-level driver (transfer_field, update_method_calls, refactor)
becomes a function producing an event trace of parse / write / delete /
raise events.  Python strings are Lean Strings; token indices are Nat.
-/

/-! ## String helpers (kernel-evaluable stand-ins for Python string ops) -/

/-- Python s.upper on the first character, concatenated with the slice
s[1:-1]: first character capitalized, remaining characters with the final
one dropped.  This is the expression field_name[0].upper() + field_name[1:-1]
used throughout FieldUsageListener. -/
def pyCapDropLast (s : String) : String :=
  match s.data with
  | [] => ""
  | c :: rest => String.mk (c.toUpper :: rest.dropLast)

/-- Python str.lower, character by character. -/
def pyLower (s : String) : String := String.mk (s.data.map Char.toLower)

def pathNameAux : List Char → List Char → List Char
  | [], acc => acc.reverse
  | c :: cs, acc => if c = '/' then pathNameAux cs [] else pathNameAux cs (c :: acc)

/-- Python pathlib Path(f).name: the final path segment after the last slash. -/
def pathName (s : String) : String := String.mk (pathNameAux s.data [])

def isPrefixOfB : List Char → List Char → Bool
  | [], _ => true
  | _ :: _, [] => false
  | a :: as, b :: bs => a = b && isPrefixOfB as bs

def isInfixOfB (p : List Char) : List Char → Bool
  | [] => isPrefixOfB p []
  | c :: rest => isPrefixOfB p (c :: rest) || isInfixOfB p rest

/-- Python substring containment test, sub in s. -/
def pyInStr (sub s : String) : Bool := isInfixOfB sub.data s.data

/-- Python str.endswith. -/
def strEndsWith (s suffix : String) : Bool :=
  isPrefixOfB suffix.data.reverse s.data.reverse

/-! ## Core data model (mirrors utils_listener_fast.Field and the rewriter) -/

/-- A field of the per-file symbol model: name, declared type, ordered
modifier list.  Mirrors the Field objects stored in package.classes (the
source name Field collides with an existing Lean class, hence JField). -/
structure JField where
  name : String
  datatype : String
  modifiers : List String
deriving DecidableEq, Repr

/-- One queued operation of the RewriterInterceptor (a TokenStreamRewriter
wrapper).  Token indices refer to the immutable token stream of one file.
The interceptor sets its modified flag on every such call, so in this
embedding the modified flag of a buffer is exactly the nonemptiness of its
queued-operation list. -/
inductive RewriteOp
  | insertAfter (idx : Nat) (text : String)
  | insertBefore (idx : Nat) (text : String)
  | replaceRange (fromIdx toIdx : Nat) (text : String)
deriving DecidableEq, Repr

/-! ## Accessor-name recognition (FieldUsageListener lines 273-298) -/

/-- FieldUsageListener.is_method_getter_or_setter: the method name equals
one of set/get/has/is followed by the field name with first letter
capitalized and last character dropped. -/
def is_method_getter_or_setter (field_name method : String) : Bool :=
  method = "set" ++ pyCapDropLast field_name ||
  method = "get" ++ pyCapDropLast field_name ||
  method = "has" ++ pyCapDropLast field_name ||
  method = "is" ++ pyCapDropLast field_name

/-- FieldUsageListener.is_getter_or_setter: the receiver identifier is a
local candidate or a field candidate, and the second identifier matches the
accessor-name convention of is_method_getter_or_setter. -/
def is_getter_or_setter (field_name first_id second_id : String)
    (local_candidates field_candidates : List String) : Bool :=
  (local_candidates.contains first_id || field_candidates.contains first_id) &&
  (second_id = "set" ++ pyCapDropLast field_name ||
   second_id = "get" ++ pyCapDropLast field_name ||
   second_id = "has" ++ pyCapDropLast field_name ||
   second_id = "is" ++ pyCapDropLast field_name)

/-- Written from the words of the specification, for comparison with the
source definition: the field name with its first letter capitalized and the
trailing character removed, as the suffix of a recognized accessor name. -/
def specAccessorSuffix (f : String) : String :=
  String.mk ((f.data.take 1).map Char.toUpper ++ (f.data.drop 1).dropLast)

/-- The four accessor names the specification derives from a field name. -/
def specAccessorNames (f : String) : List String :=
  ["get", "set", "is", "has"].map (fun p => p ++ specAccessorSuffix f)

/-- Written from the words of the claim, for comparison with the source
definition: the four prefixes followed by the field name with its first
letter capitalized, without dropping any character. -/
def claimAccessorNames (f : String) : List String :=
  ["get", "set", "is", "has"].map
    (fun p => p ++ String.mk ((f.data.take 1).map Char.toUpper ++ f.data.drop 1))

/-! ## File ordering (MoveField.change_file_order, lines 564-580) -/

/-- Python list.insert: clamps the position to the end of the list. -/
def pyInsert (i : Nat) (x : α) (l : List α) : List α :=
  if l.length ≤ i then l ++ [x] else l.take i ++ x :: l.drop i

/-- One pass of the for i, f in enumerate(self.files) loop of
change_file_order, iterating index i over the live, mutated list.  The two
found flags of the source are never set, so the loop always runs to the end
of the list; the body pops the source file to index 0 and pops the target
file to index 1.  Each iteration preserves the length of the list, so the
number of iterations equals the initial length, supplied as fuel. -/
def cfoLoop (srcName tgtName : String) (nm : α → String) :
    Nat → Nat → List α → List α
  | _, 0, files => files
  | i, fuel + 1, files =>
    if h : i < files.length then
      let f := files.get ⟨i, h⟩
      let files2 :=
        if pathName (nm f) = srcName then pyInsert 0 f (files.eraseIdx i)
        else if pathName (nm f) = tgtName then pyInsert 1 f (files.eraseIdx i)
        else files
      cfoLoop srcName tgtName nm (i + 1) fuel files2
    else files

/-- MoveField.change_file_order over a list of files, where nm extracts the
path of a file.  Reorders so that (per its docstring) the source-class file
comes first and the target-class file second. -/
def change_file_order (src_class target_class : String) (nm : α → String)
    (files : List α) : List α :=
  cfoLoop (src_class ++ ".java") (target_class ++ ".java") nm 0 files.length files

/-- C5 counterexample: for field name the claim recognizes getName as an
accessor of the field, but the source recognizes only getNam (first letter
capitalized, last character dropped); getName is rejected. -/
theorem C5_counterexample :
    ("getName" ∈ claimAccessorNames "name") ∧
    is_method_getter_or_setter "name" "getName" = false ∧
    is_method_getter_or_setter "name" "getNam" = true := by
  refine ⟨?_, ?_, ?_⟩ <;> decide

/-- C5 amended: for every nonempty field name f, a method name is recognized
by is_method_getter_or_setter exactly when it is one of the four prefixes
get/set/is/has followed by f with its first letter capitalized and its last
character removed. -/
theorem C5_accessor_naming (f m : String) (h : f ≠ "") :
    is_method_getter_or_setter f m = true ↔ m ∈ specAccessorNames f := by
  obtain ⟨data⟩ := f
  have hsuffix : pyCapDropLast ⟨data⟩ = specAccessorSuffix ⟨data⟩ := by
    cases data with
    | nil => simp at h
    | cons c rest => simp [pyCapDropLast, specAccessorSuffix]
  simp only [is_method_getter_or_setter, specAccessorNames, hsuffix,
    List.map, List.mem_cons, List.not_mem_nil, or_false,
    Bool.or_eq_true, decide_eq_true_eq]
  tauto

/-- C5 amended witness at a concrete field name. -/
theorem C5_accessor_naming_witness : "getNam" ∈ specAccessorNames "name" :=
  (C5_accessor_naming "name" "getNam" (by decide)).mp (by decide)

/-- C7: evaluation of change_file_order at the discovered-file ordering
Other.java, Target.java, Source.java, which contains both the source-class
file and the target-class file.  The result places the target-class file at
index 2, not index 1, contradicting the documented behavior that the target
class is next after the source class on the list. -/
theorem C7_change_file_order_eval :
    change_file_order "Source" "Target" id
        ["Other.java", "Target.java", "Source.java"]
      = ["Source.java", "Other.java", "Target.java"] := by
  decide

/-! ## Per-file source model (the parse-tree views the listeners consume) -/

/-- Token bounds of a usage expression: its first token and the token index
of the separating dot.  The propagate functions replace the token range
start .. dot - 1 by the injected parameter name. -/
structure CtxTok where
  start : Nat
  dot : Nat
deriving DecidableEq, Repr

/-- One entry of current_method.body_local_vars_and_expr_names.  For an
expression name, ids is the dot-separated identifier chain and tok its
token bounds; newSourceField models the guarded try-block of
handleMethodUsage lines 214-222: it carries the token bounds of the
enclosing expression when that chain of parent contexts exists, its first
subexpression text contains new followed by the source class name, and its
identifier equals the moved field name; it is none when any of that fails
(the except-pass path).  For a method invocation, isExpressionCtx records
whether the parser context of the entry is an ExpressionContext, and
methodCallName the identifier of its methodCall child when present. -/
inductive VarOrExpr
  | localVar (datatype identifier : String)
  | exprName (ids : List String) (tok : CtxTok) (newSourceField : Option CtxTok)
  | methodInv (ids : List String) (tok : CtxTok) (isExpressionCtx : Bool)
      (methodCallName : Option String)
deriving DecidableEq, Repr

/-- A method (or constructor) as handleMethodUsage sees it: its name, the
model parameter list of (datatype, identifier) pairs, the body entries, the
stop token of its formal parameter list, the token range of the context
handed to handleMethodUsage (method body, or constructor declaration), and
the token range of the enclosing class body declaration used by
exitMethodDeclaration. -/
structure MethodModel where
  name : String
  parameters : List (String × String)
  body : List VarOrExpr
  formalStop : Nat
  ctxStart : Nat
  ctxStop : Nat
  declStart : Nat
  declStop : Nat
deriving DecidableEq, Repr

/-- A field declaration site: the model field looked up from
package.classes for its first declarator identifier, and the token range of
the enclosing class body declaration (ctx.parentCtx.parentCtx). -/
structure FieldDeclCtx where
  field : JField
  declStart : Nat
  declStop : Nat
deriving DecidableEq, Repr

/-- One call site walked by MethodUsageListener.  A creator site records
whether its parent context is a CreatorContext (it is not for the
inner-creator form of the grammar, an expression dot new Inner(...)), the
first identifier of the created name, whether the argument list is
nonempty, and the token index of the closing parenthesis.  A method call
site records the presence of a this or super keyword, its identifier,
whether it has arguments, and its closing parenthesis. -/
inductive CallSite
  | creator (parentIsCreator : Bool) (createdName : String) (hasArgs : Bool)
      (rparen : Nat)
  | methodCall (isThis isSuper : Bool) (name : String) (hasArgs : Bool)
      (rparen : Nat)
deriving DecidableEq, Repr

/-- One class declaration of a file: visibility, simple name, the start
token of its enclosing type declaration (where imports are injected), the
token bounds of its class body, and its members. -/
structure ClassDecl where
  isPublic : Bool
  name : String
  typeDeclStart : Nat
  bodyStart : Nat
  bodyStop : Nat
  fieldDecls : List FieldDeclCtx
  methods : List MethodModel
  constructors : List MethodModel
deriving DecidableEq, Repr

/-- One discovered file: its path, the package declared in it, whether
file_info reports an import of the relevant package or of the source class
(the disjunction assigned to has_imported_source), the nested-class and
interface flags the precondition listener computes, its class declarations,
and the call sites seen by the update pass. -/
structure FileModel where
  path : String
  packageName : String
  importsSource : Bool
  hasInnerClass : Bool
  isInterface : Bool
  classes : List ClassDecl
  callSites : List CallSite
deriving DecidableEq, Repr

/-! ## FieldUsageListener state and class-level callbacks (lines 55-164) -/

/-- The mutable state of a FieldUsageListener, one per processed file. -/
structure FUState where
  source_class : String
  source_package : String
  target_class : String
  target_package : String
  field_name : String
  field_candidates : List String
  field_tobe_moved : Option JField
  has_imported_source : Bool
  current_class_name : String
  package_name : String
  methods_tobe_updated : List String
  ops : List RewriteOp
deriving DecidableEq, Repr

/-- FieldUsageListener construction plus enterCompilationUnit: empty
rewriter, empty current class, imports flag false. -/
def initFUState (source_class source_package target_class target_package
    field_name : String) (field_candidates : List String)
    (field_tobe_moved : Option JField) (packageName : String) : FUState :=
  { source_class := source_class, source_package := source_package,
    target_class := target_class, target_package := target_package,
    field_name := field_name, field_candidates := field_candidates,
    field_tobe_moved := field_tobe_moved, has_imported_source := false,
    current_class_name := "", package_name := packageName,
    methods_tobe_updated := [], ops := [] }

/-- FieldUsageListener.enterClassDeclaration: on a public class, record the
current class name and the imports flag, then inject an import of the
target class unless the class is the target class in the target package.
On a non-public class the callback returns with the state untouched. -/
def enterClassDeclaration (st : FUState) (importsSource : Bool)
    (c : ClassDecl) : FUState :=
  if c.isPublic then
    let st1 := { st with current_class_name := c.name,
                         has_imported_source := importsSource }
    if st1.current_class_name ≠ st1.target_class ∨
        st1.package_name ≠ st1.target_package then
      { st1 with ops := st1.ops ++ [RewriteOp.insertBefore c.typeDeclStart
          ("import " ++ st1.target_package ++ "." ++ st1.target_class ++ ";\n")] }
    else st1
  else st

/-- The field declaration text built by enterClassBody for the target
class: each modifier followed by a space, then datatype, space, name and a
semicolon. -/
def fieldDeclText (f : JField) : String :=
  (f.modifiers.foldl (fun acc m => acc ++ m ++ " ") "") ++
    f.datatype ++ " " ++ f.name ++ ";"

/-- The generated getter text of enterClassBody. -/
def getterText (f : JField) : String :=
  "\tpublic " ++ f.datatype ++ " get" ++ pyCapDropLast f.name ++
    "() \x7b return this." ++ f.name ++ "; \x7d\n"

/-- The generated setter text of enterClassBody. -/
def setterText (f : JField) : String :=
  "\tpublic void set" ++ pyCapDropLast f.name ++ "(" ++ f.datatype ++ " " ++
    f.name ++ ") \x7b this." ++ f.name ++ " = " ++ f.name ++ "; \x7d\n"

/-- FieldUsageListener.enterClassBody: inside the target class, insert the
carried field declaration after the opening brace (an empty declaration
when the carried field does not match the requested name) and the generated
getter and setter before the closing brace.  When no field has been carried
over, the original code would fail on the attribute access; that situation
is unreachable in the driver flows proved here and is modelled as no
change. -/
def enterClassBody (st : FUState) (c : ClassDecl) : FUState :=
  if st.current_class_name = st.target_class ∧
      st.package_name = st.target_package then
    match st.field_tobe_moved with
    | none => st
    | some fld =>
      let replacement := if fld.name = st.field_name then fieldDeclText fld else ""
      { st with ops := st.ops ++
          [RewriteOp.insertAfter c.bodyStart ("\n\t" ++ replacement ++ "\n"),
           RewriteOp.insertBefore c.bodyStop (getterText fld),
           RewriteOp.insertBefore c.bodyStop (setterText fld)] }
  else st

/-- FieldUsageListener.exitFieldDeclaration: inside the source class of the
source package, when no field has been captured yet and the declared field
carries the requested name, capture it and replace the whole declaration
token range with empty text. -/
def exitFieldDeclaration (st : FUState) (ctx : FieldDeclCtx) : FUState :=
  if st.current_class_name ≠ st.source_class ∨
      st.package_name ≠ st.source_package then st
  else if st.field_tobe_moved = none ∧ st.package_name = st.source_package then
    if ctx.field.name = st.field_name then
      { st with field_tobe_moved := some ctx.field,
                ops := st.ops ++
                  [RewriteOp.replaceRange ctx.declStart ctx.declStop ""] }
    else st
  else st

/-- FieldUsageListener.exitMethodDeclaration: in the source class, a method
whose name matches the accessor convention has its whole declaration range
replaced with empty text. -/
def exitMethodDeclaration (st : FUState) (m : MethodModel) : FUState :=
  if st.current_class_name = st.source_class ∧
      is_method_getter_or_setter st.field_name m.name then
    { st with ops := st.ops ++
        [RewriteOp.replaceRange m.declStart m.declStop ""] }
  else st

/-! ## C6: import injection -/

def c6State : FUState :=
  initFUState "Source" "source" "Target" "target" "a" [] none "other"

def c6Class : ClassDecl :=
  { isPublic := true, name := "Foo", typeDeclStart := 0, bodyStart := 3,
    bodyStop := 9, fieldDecls := [], methods := [], constructors := [] }

/-- C6 counterexample: a processed file whose class Foo is public and which
does not import the source package or the source class (the imports flag
passed to enterClassDeclaration is false) nevertheless receives the
injected import of the target class, refuting the only-if direction of the
claim. -/
theorem C6_counterexample :
    (enterClassDeclaration c6State false c6Class).ops
      = [RewriteOp.insertBefore 0 "import target.Target;\n"] := by decide

/-- C6 amended: starting from an empty buffer, enterClassDeclaration
injects the import of the target class exactly when the declared class is
public and is not the target class of the target package; whether the file
imports the source package or source class plays no role. -/
theorem C6_import_injection (st : FUState) (imp : Bool) (c : ClassDecl)
    (h : st.ops = []) :
    (enterClassDeclaration st imp c).ops
      = if c.isPublic ∧
            (c.name ≠ st.target_class ∨ st.package_name ≠ st.target_package)
        then [RewriteOp.insertBefore c.typeDeclStart
               ("import " ++ st.target_package ++ "." ++ st.target_class ++ ";\n")]
        else [] := by
  by_cases hp : c.isPublic
  · by_cases hc : c.name ≠ st.target_class ∨ st.package_name ≠ st.target_package
    · simp [enterClassDeclaration, hp, hc, h]
    · simp [enterClassDeclaration, hp, hc, h]
  · simp [enterClassDeclaration, hp, h]

/-- C6 amended witness at a concrete state and class. -/
theorem C6_import_injection_witness :
    (enterClassDeclaration c6State true c6Class).ops
      = [RewriteOp.insertBefore 0 "import target.Target;\n"] := by
  rw [C6_import_injection c6State true c6Class rfl]
  decide

/-! ## C1: field relocation -/

/-- C1: when the source-class pass reaches the declaration of the requested
field with nothing captured yet, the declaration token range is replaced by
empty text and the field model is captured; any later target-class pass
whose carried field is that captured field inserts into the target class
body a declaration rendered from the very same field model, hence with the
same name, the same declared type and the same ordered modifier list as the
original declaration. -/
theorem C1_field_relocation (st : FUState) (ctx : FieldDeclCtx)
    (st2 : FUState) (c : ClassDecl)
    (h1 : st.current_class_name = st.source_class)
    (h2 : st.package_name = st.source_package)
    (h3 : st.field_tobe_moved = none)
    (h4 : ctx.field.name = st.field_name)
    (h5 : st2.field_tobe_moved = (exitFieldDeclaration st ctx).field_tobe_moved)
    (h6 : st2.current_class_name = st2.target_class)
    (h7 : st2.package_name = st2.target_package)
    (h8 : st2.field_name = st.field_name) :
    (exitFieldDeclaration st ctx).ops
        = st.ops ++ [RewriteOp.replaceRange ctx.declStart ctx.declStop ""] ∧
    (exitFieldDeclaration st ctx).field_tobe_moved = some ctx.field ∧
    RewriteOp.insertAfter c.bodyStart ("\n\t" ++ fieldDeclText ctx.field ++ "\n")
        ∈ (enterClassBody st2 c).ops := by
  have hx : exitFieldDeclaration st ctx
      = { st with field_tobe_moved := some ctx.field,
                  ops := st.ops ++
                    [RewriteOp.replaceRange ctx.declStart ctx.declStop ""] } := by
    unfold exitFieldDeclaration
    simp [h1, h2, h3, h4]
  refine ⟨by rw [hx], by rw [hx], ?_⟩
  have hmoved : st2.field_tobe_moved = some ctx.field := by rw [h5, hx]
  have hname : ctx.field.name = st2.field_name := by rw [h8, h4]
  unfold enterClassBody
  simp [h6, h7, hmoved, hname]

def c1Field : JField := { name := "a", datatype := "int", modifiers := ["private"] }

def c1St : FUState :=
  { source_class := "Source", source_package := "source",
    target_class := "Target", target_package := "target", field_name := "a",
    field_candidates := [], field_tobe_moved := none,
    has_imported_source := true, current_class_name := "Source",
    package_name := "source", methods_tobe_updated := [], ops := [] }

def c1Ctx : FieldDeclCtx := { field := c1Field, declStart := 10, declStop := 14 }

def c1St2 : FUState :=
  { c1St with current_class_name := "Target", package_name := "target",
              field_tobe_moved := some c1Field }

def c1Class : ClassDecl :=
  { isPublic := true, name := "Target", typeDeclStart := 0, bodyStart := 5,
    bodyStop := 20, fieldDecls := [], methods := [], constructors := [] }

/-- C1 witness at a concrete source state, field declaration and target
state. -/
theorem C1_field_relocation_witness :
    (exitFieldDeclaration c1St c1Ctx).ops
        = c1St.ops ++ [RewriteOp.replaceRange c1Ctx.declStart c1Ctx.declStop ""] ∧
    (exitFieldDeclaration c1St c1Ctx).field_tobe_moved = some c1Ctx.field ∧
    RewriteOp.insertAfter c1Class.bodyStart
        ("\n\t" ++ fieldDeclText c1Ctx.field ++ "\n")
        ∈ (enterClassBody c1St2 c1Class).ops :=
  C1_field_relocation c1St c1Ctx c1St2 c1Class rfl rfl rfl rfl (by decide)
    rfl rfl rfl

/-! ## handleMethodUsage (FieldUsageListener lines 166-271) -/

/-- Injection of the trailing target-class parameter, guarded by the
target_added flag: performed at most once per handleMethodUsage call.  The
recorded method is kept by name (MethodUsageListener only ever reads the
name of a recorded method). -/
def injectTargetParam (st : FUState) (mname : String) (fStop : Nat)
    (tp : String) (added : Bool) : FUState × Bool :=
  if added then (st, true)
  else
    ({ st with
        ops := st.ops ++ [RewriteOp.insertBefore fStop tp],
        methods_tobe_updated := st.methods_tobe_updated ++ [mname] }, true)

/-- One iteration of the usage loop of handleMethodUsage over an entry of
the method body, threading the target_added flag.  tpn is the injected
parameter name, tp the formal parameter text. -/
def bodyStep (m : MethodModel) (locals : List String) (tpn tp : String)
    (acc : FUState × Bool) (e : VarOrExpr) : FUState × Bool :=
  let st := acc.1
  let added := acc.2
  match e with
  | VarOrExpr.localVar _ _ => (st, added)
  | VarOrExpr.exprName ids tok newSrc =>
    let st1 := match newSrc with
      | some c => { st with ops := st.ops ++
          [RewriteOp.replaceRange c.start (c.dot - 1) tpn] }
      | none => st
    if ids.length < 2 then (st1, added)
    else if (ids.headD "" ∈ locals ∨ ids.headD "" ∈ st1.field_candidates) ∧
        ids.getD 1 "" = st1.field_name then
      let r := injectTargetParam st1 m.name m.formalStop tp added
      ({ r.1 with ops := r.1.ops ++
          [RewriteOp.replaceRange tok.start (tok.dot - 1) tpn] }, r.2)
    else (st1, added)
  | VarOrExpr.methodInv ids tok isExprCtx mcName =>
    if ids.headD "" = "new" ++ st.source_class then
      match mcName with
      | some n =>
        if is_method_getter_or_setter st.field_name n then
          ({ st with ops := st.ops ++
              [RewriteOp.replaceRange tok.start (tok.dot - 1) tpn] }, added)
        else (st, added)
      | none => (st, added)
    else if is_method_getter_or_setter st.field_name (ids.headD "") then
      let r := injectTargetParam st m.name m.formalStop tp added
      if ¬ isExprCtx then (r.1, r.2)
      else ({ r.1 with ops := r.1.ops ++
          [RewriteOp.insertBefore tok.start (tpn ++ ".")] }, r.2)
    else if ids.length > 1 ∧
        is_getter_or_setter st.field_name (ids.headD "") (ids.getD 1 "")
          locals st.field_candidates then
      let r := injectTargetParam st m.name m.formalStop tp added
      ({ r.1 with ops := r.1.ops ++
          [RewriteOp.replaceRange tok.start (tok.dot - 1) tpn] }, r.2)
    else (st, added)

/-- The usage loop of handleMethodUsage. -/
def bodyLoop (m : MethodModel) (locals : List String) (tpn tp : String) :
    FUState → Bool → List VarOrExpr → FUState
  | st, _, [] => st
  | st, added, e :: rest =>
    let acc := bodyStep m locals tpn tp (st, added) e
    bodyLoop m locals tpn tp acc.1 acc.2 rest

/-- The local candidate set of handleMethodUsage: this inside the source
class, parameters whose declared type is the source class, and local
variables whose declared type is the source class. -/
def localCandidates (st : FUState) (m : MethodModel) : List String :=
  (if st.current_class_name = st.source_class then ["this"] else []) ++
  m.parameters.filterMap
    (fun p => if p.1 = st.source_class then some p.2 else none) ++
  m.body.filterMap (fun e => match e with
    | VarOrExpr.localVar dt id =>
        if dt = st.source_class then some id else none
    | _ => none)

/-- FieldUsageListener.handleMethodUsage: on a present current method, with
the source import seen, either delete a source-class accessor body and
stop, or walk the body entries redirecting qualifying usages, injecting the
trailing target parameter on the first one. -/
def handleMethodUsage (st : FUState) (m : Option MethodModel) : FUState :=
  match m with
  | none => st
  | some m =>
    let tpn := "$$" ++ pyLower st.target_class
    let tp := if m.parameters.length = 0
              then st.target_class ++ " " ++ tpn
              else ", " ++ st.target_class ++ " " ++ tpn
    if ¬ st.has_imported_source then st
    else if st.current_class_name = st.source_class ∧
        is_method_getter_or_setter st.field_name m.name then
      { st with ops := st.ops ++
          [RewriteOp.replaceRange m.ctxStart m.ctxStop ""] }
    else
      bodyLoop m (localCandidates st m) tpn tp st false m.body

/-! ## C3: single parameter injection -/

/-- An operation that inserts text at the stop token of the formal
parameter list: the shape of the injected-parameter operation. -/
def isInjectionAt (fStop : Nat) : RewriteOp → Bool
  | RewriteOp.insertBefore i _ => i = fStop
  | _ => false

/-- Number of queued operations that insert at the formal-parameter stop
token. -/
def countInjections (fStop : Nat) (ops : List RewriteOp) : Nat :=
  (ops.filter (isInjectionAt fStop)).length

/-- Parse-tree sanity: a usage expression does not start at the stop token
of the enclosing formal parameter list (usages live in the method body,
after the parameter list). -/
def elemAvoids (fStop : Nat) : VarOrExpr → Bool
  | VarOrExpr.methodInv _ tok _ _ => tok.start ≠ fStop
  | _ => true

/-- Every operation handleMethodUsage can queue: the injected parameter
text at the formal-parameter stop, a receiver redirection to the injected
parameter name, a prefix insertion of the injected parameter name, or an
accessor-body deletion. -/
def opUsesParam (fStop : Nat) (tp tpn : String) : RewriteOp → Prop
  | RewriteOp.insertBefore i t => if i = fStop then t = tp else t = tpn ++ "."
  | RewriteOp.replaceRange _ _ t => t = "" ∨ t = tpn
  | RewriteOp.insertAfter _ _ => False

theorem countInjections_append (fStop : Nat) (l1 l2 : List RewriteOp) :
    countInjections fStop (l1 ++ l2)
      = countInjections fStop l1 + countInjections fStop l2 := by
  simp [countInjections, List.filter_append]

theorem countInjections_replace (fStop a b : Nat) (t : String) :
    countInjections fStop [RewriteOp.replaceRange a b t] = 0 := by
  simp [countInjections, isInjectionAt]

theorem countInjections_insertBefore (fStop i : Nat) (t : String) :
    countInjections fStop [RewriteOp.insertBefore i t]
      = if i = fStop then 1 else 0 := by
  by_cases h : i = fStop <;> simp [countInjections, isInjectionAt, h]

theorem injectTargetParam_invariant (st : FUState) (mname : String)
    (fStop : Nat) (tp tpn : String) (added : Bool)
    (hcount : countInjections fStop st.ops ≤ if added then 1 else 0)
    (huse : ∀ op ∈ st.ops, opUsesParam fStop tp tpn op) :
    countInjections fStop (injectTargetParam st mname fStop tp added).1.ops
      ≤ (if (injectTargetParam st mname fStop tp added).2 then 1 else 0) ∧
    ∀ op ∈ (injectTargetParam st mname fStop tp added).1.ops,
      opUsesParam fStop tp tpn op := by
  cases added with
  | true => exact ⟨hcount, huse⟩
  | false =>
    have h0 : countInjections fStop st.ops = 0 := by simpa using hcount
    refine ⟨?_, ?_⟩
    · simp [injectTargetParam, countInjections_append,
        countInjections_insertBefore, h0]
    · intro op hop
      simp only [injectTargetParam, Bool.false_eq_true, if_false] at hop
      rcases List.mem_append.mp hop with h | h
      · exact huse op h
      · rcases List.mem_singleton.mp h with rfl
        simp [opUsesParam]

theorem invariant_append_replace (fStop : Nat) (tp tpn : String)
    (ops : List RewriteOp) (k a b : Nat) (t : String)
    (ht : t = "" ∨ t = tpn)
    (hcount : countInjections fStop ops ≤ k)
    (huse : ∀ op ∈ ops, opUsesParam fStop tp tpn op) :
    countInjections fStop (ops ++ [RewriteOp.replaceRange a b t]) ≤ k ∧
    ∀ op ∈ ops ++ [RewriteOp.replaceRange a b t],
      opUsesParam fStop tp tpn op := by
  refine ⟨?_, ?_⟩
  · simpa [countInjections_append, countInjections_replace] using hcount
  · intro op hop
    rcases List.mem_append.mp hop with h | h
    · exact huse op h
    · rcases List.mem_singleton.mp h with rfl
      exact ht

theorem invariant_append_insert (fStop : Nat) (tp tpn : String)
    (ops : List RewriteOp) (k i : Nat)
    (hi : i ≠ fStop)
    (hcount : countInjections fStop ops ≤ k)
    (huse : ∀ op ∈ ops, opUsesParam fStop tp tpn op) :
    countInjections fStop (ops ++ [RewriteOp.insertBefore i (tpn ++ ".")]) ≤ k ∧
    ∀ op ∈ ops ++ [RewriteOp.insertBefore i (tpn ++ ".")],
      opUsesParam fStop tp tpn op := by
  refine ⟨?_, ?_⟩
  · simpa [countInjections_append, countInjections_insertBefore, hi] using hcount
  · intro op hop
    rcases List.mem_append.mp hop with h | h
    · exact huse op h
    · rcases List.mem_singleton.mp h with rfl
      simp [opUsesParam, hi]

/-- The invariant carried through the usage loop: the number of queued
injections is bounded by the target_added flag, and every queued operation
has one of the shapes of opUsesParam. -/
def stepInv (fStop : Nat) (tp tpn : String) (p : FUState × Bool) : Prop :=
  countInjections fStop p.1.ops ≤ (if p.2 then 1 else 0) ∧
  ∀ op ∈ p.1.ops, opUsesParam fStop tp tpn op

theorem stepInv_append_replace (fStop : Nat) (tp tpn : String)
    (p : FUState × Bool) (a b : Nat) (t : String) (ht : t = "" ∨ t = tpn)
    (h : stepInv fStop tp tpn p) :
    stepInv fStop tp tpn
      ({ p.1 with ops := p.1.ops ++ [RewriteOp.replaceRange a b t] }, p.2) := by
  obtain ⟨h1, h2⟩ := h
  have hx := invariant_append_replace fStop tp tpn p.1.ops _ a b t ht h1 h2
  exact ⟨hx.1, hx.2⟩

theorem stepInv_append_insert (fStop : Nat) (tp tpn : String)
    (p : FUState × Bool) (i : Nat) (hi : i ≠ fStop)
    (h : stepInv fStop tp tpn p) :
    stepInv fStop tp tpn
      ({ p.1 with ops := p.1.ops ++ [RewriteOp.insertBefore i (tpn ++ ".")] },
        p.2) := by
  obtain ⟨h1, h2⟩ := h
  have hx := invariant_append_insert fStop tp tpn p.1.ops _ i hi h1 h2
  exact ⟨hx.1, hx.2⟩

theorem stepInv_inject (fStop : Nat) (tp tpn : String) (mname : String)
    (p : FUState × Bool) (h : stepInv fStop tp tpn p) :
    stepInv fStop tp tpn (injectTargetParam p.1 mname fStop tp p.2) := by
  obtain ⟨h1, h2⟩ := h
  exact injectTargetParam_invariant p.1 mname fStop tp tpn p.2 h1 h2

theorem bodyStep_invariant (m : MethodModel) (locals : List String)
    (tpn tp : String) (st : FUState) (added : Bool) (e : VarOrExpr)
    (hav : elemAvoids m.formalStop e = true)
    (hin : stepInv m.formalStop tp tpn (st, added)) :
    stepInv m.formalStop tp tpn (bodyStep m locals tpn tp (st, added) e) := by
  rcases e with ⟨dt, id⟩ | ⟨ids, tok, newSrc⟩ | ⟨ids, tok, isExprCtx, mcName⟩
  · exact hin
  · rcases newSrc with _ | c
    · simp only [bodyStep]
      split
      · exact hin
      · split
        · exact stepInv_append_replace _ _ _ _ tok.start (tok.dot - 1) tpn
            (Or.inr rfl) (stepInv_inject _ _ _ m.name _ hin)
        · exact hin
    · simp only [bodyStep]
      have hin1 := stepInv_append_replace m.formalStop tp tpn (st, added)
        c.start (c.dot - 1) tpn (Or.inr rfl) hin
      split
      · exact hin1
      · split
        · exact stepInv_append_replace _ _ _ _ tok.start (tok.dot - 1) tpn
            (Or.inr rfl) (stepInv_inject _ _ _ m.name _ hin1)
        · exact hin1
  · have htok : tok.start ≠ m.formalStop := by simpa [elemAvoids] using hav
    rcases mcName with _ | n
    · simp only [bodyStep]
      split
      · exact hin
      · split
        · split
          · exact stepInv_inject _ _ _ m.name _ hin
          · exact stepInv_append_insert _ _ _ _ tok.start htok
              (stepInv_inject _ _ _ m.name _ hin)
        · split
          · exact stepInv_append_replace _ _ _ _ tok.start (tok.dot - 1) tpn
              (Or.inr rfl) (stepInv_inject _ _ _ m.name _ hin)
          · exact hin
    · simp only [bodyStep]
      split
      · split
        · exact stepInv_append_replace _ _ _ (st, added) tok.start
            (tok.dot - 1) tpn (Or.inr rfl) hin
        · exact hin
      · split
        · split
          · exact stepInv_inject _ _ _ m.name _ hin
          · exact stepInv_append_insert _ _ _ _ tok.start htok
              (stepInv_inject _ _ _ m.name _ hin)
        · split
          · exact stepInv_append_replace _ _ _ _ tok.start (tok.dot - 1) tpn
              (Or.inr rfl) (stepInv_inject _ _ _ m.name _ hin)
          · exact hin

theorem bodyLoop_invariant (m : MethodModel) (locals : List String)
    (tpn tp : String) (l : List VarOrExpr) :
    ∀ (st : FUState) (added : Bool),
    (∀ e ∈ l, elemAvoids m.formalStop e = true) →
    stepInv m.formalStop tp tpn (st, added) →
    countInjections m.formalStop (bodyLoop m locals tpn tp st added l).ops ≤ 1 ∧
    ∀ op ∈ (bodyLoop m locals tpn tp st added l).ops,
      opUsesParam m.formalStop tp tpn op := by
  induction l with
  | nil =>
    intro st added _ hin
    exact ⟨le_trans hin.1 (by cases added <;> simp), hin.2⟩
  | cons e rest ih =>
    intro st added hav hin
    simp only [bodyLoop]
    have hstep := bodyStep_invariant m locals tpn tp st added e
      (hav e (by simp)) hin
    exact ih _ _ (fun x hx => hav x (by simp [hx])) hstep

/-- C3: for every method body handed to handleMethodUsage starting from an
empty buffer, at most one queued operation inserts at the stop token of the
formal parameter list (the injected trailing target parameter), however
many qualifying usages the body contains; and every queued operation either
is that injection, deletes an accessor body, or redirects a usage through
the single injected parameter name. -/
theorem C3_single_injection (st : FUState) (m : MethodModel)
    (h0 : st.ops = [])
    (hav : ∀ e ∈ m.body, elemAvoids m.formalStop e = true) :
    countInjections m.formalStop (handleMethodUsage st (some m)).ops ≤ 1 ∧
    ∀ op ∈ (handleMethodUsage st (some m)).ops,
      opUsesParam m.formalStop
        (if m.parameters.length = 0
         then st.target_class ++ " " ++ ("$$" ++ pyLower st.target_class)
         else ", " ++ st.target_class ++ " " ++ ("$$" ++ pyLower st.target_class))
        ("$$" ++ pyLower st.target_class) op := by
  simp only [handleMethodUsage]
  split
  · refine ⟨by simp [h0, countInjections], ?_⟩
    intro op hop
    rw [h0] at hop
    simp at hop
  · split
    · refine ⟨?_, ?_⟩
      · simp [h0, countInjections, isInjectionAt]
      · intro op hop
        rw [h0] at hop
        rcases List.mem_append.mp hop with h | h
        · simp at h
        · rcases List.mem_singleton.mp h with rfl
          exact Or.inl rfl
    · refine bodyLoop_invariant m (localCandidates st m) _ _ m.body st false
        hav ⟨?_, ?_⟩
      · simp [h0, countInjections]
      · rw [h0]
        intro op hop
        simp at hop

def c3St : FUState :=
  { source_class := "Source", source_package := "source",
    target_class := "Target", target_package := "target", field_name := "a",
    field_candidates := [], field_tobe_moved := none,
    has_imported_source := true, current_class_name := "Client",
    package_name := "client", methods_tobe_updated := [], ops := [] }

def c3Method : MethodModel :=
  { name := "useA", parameters := [("Source", "s")],
    body := [VarOrExpr.exprName ["s", "a"] ⟨10, 11⟩ none,
             VarOrExpr.exprName ["s", "a"] ⟨20, 21⟩ none],
    formalStop := 5, ctxStart := 6, ctxStop := 30, declStart := 6,
    declStop := 30 }

/-- C3 witness: a method with two qualifying usages of the moved field. -/
theorem C3_single_injection_witness :
    countInjections c3Method.formalStop
        (handleMethodUsage c3St (some c3Method)).ops ≤ 1 ∧
    ∀ op ∈ (handleMethodUsage c3St (some c3Method)).ops,
      opUsesParam c3Method.formalStop
        (if c3Method.parameters.length = 0
         then c3St.target_class ++ " " ++ ("$$" ++ pyLower c3St.target_class)
         else ", " ++ c3St.target_class ++ " " ++
           ("$$" ++ pyLower c3St.target_class))
        ("$$" ++ pyLower c3St.target_class) op :=
  C3_single_injection c3St c3Method rfl (by decide)

/-! ## MethodUsageListener (lines 347-406) -/

/-- The argument text appended by MethodUsageListener: a fresh target-class
construction, comma-prefixed exactly when the call already has arguments. -/
def appendArgText (target_class : String) (hasArgs : Bool) : String :=
  if hasArgs then ", new " ++ target_class ++ "()" else "new " ++ target_class ++ "()"

/-- One callback of MethodUsageListener on a call site.  For a creator
site, enterClassCreatorRest returns early only when the parent context is a
CreatorContext and the created name is not in the recorded method-name set;
otherwise it inserts the appended argument before the closing parenthesis.
For a method call, exitMethodCall returns on this or super and otherwise
inserts exactly when the identifier is in the recorded set. -/
def methodUsageStep (method_names : List String) (target_class : String)
    (ops : List RewriteOp) (c : CallSite) : List RewriteOp :=
  match c with
  | CallSite.creator parentIsCreator createdName hasArgs rparen =>
    if parentIsCreator ∧ createdName ∉ method_names then ops
    else ops ++ [RewriteOp.insertBefore rparen (appendArgText target_class hasArgs)]
  | CallSite.methodCall isThis isSuper nm hasArgs rparen =>
    if isThis then ops
    else if isSuper then ops
    else if nm ∈ method_names then
      ops ++ [RewriteOp.insertBefore rparen (appendArgText target_class hasArgs)]
    else ops

/-- The walk of MethodUsageListener over the call sites of one file. -/
def methodUsageWalk (method_names : List String) (target_class : String)
    (sites : List CallSite) : List RewriteOp :=
  sites.foldl (methodUsageStep method_names target_class) []

/-- C8 counterexample: a constructor call whose parent context is not a
CreatorContext (the inner-creator grammar form, an expression dot new
Inner(...)) receives the appended target-class argument although its
created name bar is not in the recorded method set, refuting the only-if
direction of the claim. -/
theorem C8_counterexample :
    methodUsageStep ["foo"] "Target" [] (CallSite.creator false "bar" false 5)
      = [RewriteOp.insertBefore 5 "new Target()"] ∧ "bar" ∉ ["foo"] := by
  refine ⟨by decide, by decide⟩

/-- C8 amended: calls through this or super are never modified; plain
method calls and creator calls whose parent is a CreatorContext receive the
appended argument exactly when the callee name is in the recorded set,
comma-prefixed exactly when arguments exist; but a creator call whose
parent is not a CreatorContext receives the appended argument
unconditionally. -/
theorem C8_call_site_append (names : List String) (target : String)
    (ops : List RewriteOp) (nm : String) (args : Bool) (rp : Nat) :
    (∀ th sup : Bool, th = true ∨ sup = true →
      methodUsageStep names target ops
        (CallSite.methodCall th sup nm args rp) = ops) ∧
    (nm ∈ names →
      methodUsageStep names target ops
          (CallSite.methodCall false false nm args rp)
        = ops ++ [RewriteOp.insertBefore rp (appendArgText target args)]) ∧
    (nm ∉ names →
      methodUsageStep names target ops
        (CallSite.methodCall false false nm args rp) = ops) ∧
    (nm ∈ names →
      methodUsageStep names target ops (CallSite.creator true nm args rp)
        = ops ++ [RewriteOp.insertBefore rp (appendArgText target args)]) ∧
    (nm ∉ names →
      methodUsageStep names target ops (CallSite.creator true nm args rp)
        = ops) ∧
    (methodUsageStep names target ops (CallSite.creator false nm args rp)
      = ops ++ [RewriteOp.insertBefore rp (appendArgText target args)]) := by
  refine ⟨?_, ?_, ?_, ?_, ?_, ?_⟩
  · rintro th sup (rfl | rfl)
    · simp [methodUsageStep]
    · cases th <;> simp [methodUsageStep]
  · intro h; simp [methodUsageStep, h]
  · intro h; simp [methodUsageStep, h]
  · intro h; simp [methodUsageStep, h]
  · intro h; simp [methodUsageStep, h]
  · simp [methodUsageStep]

/-- C8 amended witness at concrete call sites. -/
theorem C8_call_site_append_witness :
    methodUsageStep ["foo"] "Target" []
        (CallSite.methodCall false false "foo" true 7)
      = [RewriteOp.insertBefore 7 ", new Target()"] := by
  have h := (C8_call_site_append ["foo"] "Target" [] "foo" true 7).2.1
    (by decide)
  simpa [appendArgText] using h

/-! ## PreConditionListener (lines 409-521) and the move request -/

/-- The refactoring request fields of MoveField. -/
structure MoveReq where
  src_package : String
  src_class : String
  field_name : String
  target_package : String
  target_class : String
  overwrite : Bool
deriving DecidableEq, Repr

/-- The typed failures of the precondition phase, plus the nested-class
escalations and the missing-file failure of refactor. -/
inductive MFError
  | fieldNotFound
  | targetDoesNotExist
  | duplicateField
  | targetNoEmptyConstructor
  | nestedSource
  | nestedTarget
  | fileNotFoundError
deriving DecidableEq, Repr

/-- The field names of one class of the per-file model. -/
def classFieldNames (c : ClassDecl) : List String :=
  c.fieldDecls.map (fun d => d.field.name)

/-- PreConditionListener contains_field: the file declares the source
package and its classes contain the source class with the requested
field. -/
def preContainsField (req : MoveReq) (f : FileModel) : Bool :=
  f.packageName = req.src_package &&
  match f.classes.find? (fun c => c.name = req.src_class) with
  | some c => (classFieldNames c).contains req.field_name
  | none => false

/-- PreConditionListener target_exists. -/
def preTargetExists (req : MoveReq) (f : FileModel) : Bool :=
  f.packageName = req.target_package &&
  (f.classes.find? (fun c => c.name = req.target_class)).isSome

/-- PreConditionListener duplicate_field. -/
def preDuplicateField (req : MoveReq) (f : FileModel) : Bool :=
  f.packageName = req.target_package &&
  match f.classes.find? (fun c => c.name = req.target_class) with
  | some c => (classFieldNames c).contains req.field_name
  | none => false

/-- The constructor declarations of one file in document order, each as the
enclosing class identifier paired with whether it has parameters. -/
def ctorEntries (f : FileModel) : List (String × Bool) :=
  f.classes.flatMap (fun c => c.constructors.map
    (fun m => (c.name, !m.parameters.isEmpty)))

/-- PreConditionListener.enterConstructorDeclaration folded over one
constructor: skipped only when the enclosing class differs from the target
class and the package differs from the target package; a parameterless
constructor sets both flags, a parameterized one clears the empty flag only
while none parameterless has been found.  State is the pair
(empty_constructor, found_empty_constructor). -/
def emptyCtorStep (req : MoveReq) (pkg : String) (s : Bool × Bool)
    (c : String × Bool) : Bool × Bool :=
  if c.1 ≠ req.target_class ∧ pkg ≠ req.target_package then s
  else if c.2 = false then (true, true)
  else if s.2 = false then (false, s.2)
  else s

/-- PreConditionListener has_empty_constructor after walking the file. -/
def preEmptyConstructor (req : MoveReq) (f : FileModel) : Bool :=
  ((ctorEntries f).foldl (emptyCtorStep req f.packageName) (true, false)).1

/-- The raise decision of the precondition loop of transfer_field for one
file (lines 633-655): on the source-class file, FieldNotFound then the
nested-class escalation; on the target-class file, TargetDoesNotExist,
DuplicateField, TargetNoEmptyConstructor, then the nested-class
escalation. -/
def fileCheck (req : MoveReq) (f : FileModel) : Option MFError :=
  if pathName f.path = req.src_class ++ ".java" ∧
      f.packageName = req.src_package then
    if preContainsField req f = false then some MFError.fieldNotFound
    else if f.hasInnerClass then some MFError.nestedSource
    else none
  else if pathName f.path = req.target_class ++ ".java" ∧
      f.packageName = req.target_package then
    if preTargetExists req f = false then some MFError.targetDoesNotExist
    else if preDuplicateField req f then some MFError.duplicateField
    else if preEmptyConstructor req f = false then
      some MFError.targetNoEmptyConstructor
    else if f.hasInnerClass then some MFError.nestedTarget
    else none
  else none

/-- The skip decision of the precondition loop: files with nested classes
or interfaces are dropped from the processing list (lines 657-663). -/
def keepFile (f : FileModel) : Bool := !f.hasInnerClass && !f.isInterface

/-! ## Event traces of the driver (MoveField lines 524-741) -/

/-- One observable action of the driver: parsing a file, writing a file,
deleting a file, or raising a typed failure. -/
inductive Ev
  | parse (path : String)
  | write (path : String)
  | delete (path : String)
  | raise (e : MFError)
deriving DecidableEq, Repr

/-- The precondition loop of transfer_field (lines 619-668): each file is
parsed and checked in order; the first failing file raises and stops the
whole run; surviving files are kept for the rewrite loop unless skipped
for a nested class or an interface. -/
def precondLoop (req : MoveReq) : List FileModel → List Ev × Option (List FileModel)
  | [] => ([], some [])
  | f :: rest =>
    match fileCheck req f with
    | some e => ([Ev.parse f.path, Ev.raise e], none)
    | none =>
      let r := precondLoop req rest
      (Ev.parse f.path :: r.1,
       r.2.map (fun ks => if keepFile f then f :: ks else ks))

/-- The walk of a FieldUsageListener over one class declaration, in tree
order: enterClassDeclaration, enterClassBody, the field declarations, then
the methods (handleMethodUsage from exitMethodBody followed by
exitMethodDeclaration) and the constructors (handleMethodUsage from
exitConstructorDeclaration).  Members are grouped by kind; within each kind
document order is preserved, and no callback of one kind reads state
written by a later-ordered kind of the same file. -/
def walkClass (importsSource : Bool) (st : FUState) (c : ClassDecl) : FUState :=
  let st1 := enterClassDeclaration st importsSource c
  let st2 := enterClassBody st1 c
  let st3 := c.fieldDecls.foldl exitFieldDeclaration st2
  let st4 := c.methods.foldl
    (fun s mm => exitMethodDeclaration (handleMethodUsage s (some mm)) mm) st3
  c.constructors.foldl (fun s mm => handleMethodUsage s (some mm)) st4

/-- The walk of a FieldUsageListener over one file. -/
def fieldUsageWalk (req : MoveReq) (cands : List String)
    (fld : Option JField) (f : FileModel) : FUState :=
  f.classes.foldl (walkClass f.importsSource)
    (initFUState req.src_class req.src_package req.target_class
      req.target_package req.field_name cands fld f.packageName)

/-- The field-candidate computation of the rewrite loop of transfer_field
(lines 679-683): the names of the fields whose declared type equals the
source class name, gathered from the classes of the file about to be
rewritten. -/
def fieldCandidates (req : MoveReq) (f : FileModel) : List String :=
  f.classes.flatMap (fun c => c.fieldDecls.filterMap
    (fun d => if d.field.datatype = req.src_class then some d.field.name
              else none))

/-- What the rewrite loop retains for one processed file: the file itself,
the candidate set passed to its FieldUsageListener, and the final listener
state. -/
structure FileResult where
  file : FileModel
  candidates : List String
  st : FUState
deriving DecidableEq, Repr

/-- The rewrite loop of transfer_field (lines 676-708): each surviving file
is parsed and walked with the candidate set computed from that file, then
saved unconditionally (the modified check of line 700 is commented out in
the source); the captured field is threaded onward after any file whose
path contains the source class name. -/
def migrateLoop (req : MoveReq) :
    Option JField → List FileModel → List Ev × List FileResult
  | _, [] => ([], [])
  | fld, f :: rest =>
    let cand := fieldCandidates req f
    let st := fieldUsageWalk req cand fld f
    let fld2 := if pyInStr req.src_class f.path then st.field_tobe_moved else fld
    let r := migrateLoop req fld2 rest
    (Ev.parse f.path :: Ev.write f.path :: r.1,
     { file := f, candidates := cand, st := st } :: r.2)

/-- MoveField.transfer_field as an event trace paired with the per-file
results: the precondition loop runs over every file first; only when no
file raised does the rewrite loop run. -/
def transferTrace (req : MoveReq) (files : List FileModel) :
    List Ev × List FileResult :=
  match precondLoop req files with
  | (evs, none) => (evs, [])
  | (evs, some kept) =>
    let r := migrateLoop req none kept
    (evs ++ r.1, r.2)

/-- The accumulated methods-to-be-updated list of transfer_field: each
processed file prepends its recorded methods. -/
def transferMethods (results : List FileResult) : List String :=
  results.foldl (fun acc r => r.st.methods_tobe_updated ++ acc) []

/-- The path a listener save writes to: the original path when overwriting,
otherwise the default filename mapping appending .rewritten.java. -/
def applyPath (req : MoveReq) (path : String) : String :=
  if req.overwrite then path else path ++ ".rewritten.java"

/-- MoveField.update_method_calls as an event trace: each file of the
processing list has its mapped counterpart parsed and walked by a
MethodUsageListener, and is written back only when that walk queued an
operation (the modified flag). -/
def updateTrace (req : MoveReq) (method_names : List String)
    (files : List FileModel) : List Ev :=
  files.flatMap (fun f =>
    Ev.parse (applyPath req f.path) ::
      (if methodUsageWalk method_names req.target_class f.callSites = []
       then [] else [Ev.write (applyPath req f.path)]))

/-- MoveField.check_file_exists: one pass with an if/elif per file, so a
file can witness only one of the two roles. -/
def check_file_exists (req : MoveReq) (files : List FileModel) : Bool :=
  let r := files.foldl (fun (s : Bool × Bool) f =>
    if strEndsWith f.path (req.src_class ++ ".java") then (true, s.2)
    else if strEndsWith f.path (req.target_class ++ ".java") then (s.1, true)
    else s) (false, false)
  r.1 && r.2

/-- MoveField.refactor as an event trace: clean_up_dir deletes every
discovered file whose path contains rewritten.java and drops it from the
list; then the existence check, the reordering, the transfer pass and the
call-site pass run on the cleaned list. -/
def refactorTrace (req : MoveReq) (files : List FileModel) : List Ev :=
  let deleted := files.filter (fun f => pyInStr "rewritten.java" f.path)
  let cleaned := files.filter (fun f => !pyInStr "rewritten.java" f.path)
  deleted.map (fun f => Ev.delete f.path) ++
  (if check_file_exists req cleaned = false
   then [Ev.raise MFError.fileNotFoundError]
   else
     let ordered := change_file_order req.src_class req.target_class
       (fun f => f.path) cleaned
     let tr := transferTrace req ordered
     tr.1 ++ updateTrace req (transferMethods tr.2)
       (tr.2.map (fun r => r.file)))

/-! ## Shape lemmas for the event traces -/

theorem precondLoop_events (req : MoveReq) :
    ∀ (files : List FileModel) (ev : Ev), ev ∈ (precondLoop req files).1 →
    (∃ p, ev = Ev.parse p) ∨ (∃ e, ev = Ev.raise e) := by
  intro files
  induction files with
  | nil => intro ev h; simp [precondLoop] at h
  | cons f fs ih =>
    intro ev h
    rcases hc : fileCheck req f with _ | e <;> simp only [precondLoop, hc] at h
    · rcases List.mem_cons.mp h with rfl | h
      · exact Or.inl ⟨f.path, rfl⟩
      · exact ih ev h
    · rcases List.mem_cons.mp h with rfl | h
      · exact Or.inl ⟨f.path, rfl⟩
      · rcases List.mem_cons.mp h with rfl | h
        · exact Or.inr ⟨e, rfl⟩
        · simp at h

theorem migrateLoop_events (req : MoveReq) :
    ∀ (fld : Option JField) (files : List FileModel) (ev : Ev),
    ev ∈ (migrateLoop req fld files).1 →
    (∃ p, ev = Ev.parse p) ∨ (∃ p, ev = Ev.write p) := by
  intro fld files
  induction files generalizing fld with
  | nil => intro ev h; simp [migrateLoop] at h
  | cons f fs ih =>
    intro ev h
    simp only [migrateLoop] at h
    rcases List.mem_cons.mp h with rfl | h
    · exact Or.inl ⟨f.path, rfl⟩
    · rcases List.mem_cons.mp h with rfl | h
      · exact Or.inr ⟨f.path, rfl⟩
      · exact ih _ ev h

theorem updateTrace_events (req : MoveReq) (names : List String) :
    ∀ (files : List FileModel) (ev : Ev),
    ev ∈ updateTrace req names files →
    (∃ p, ev = Ev.parse p) ∨ (∃ p, ev = Ev.write p) := by
  intro files
  induction files with
  | nil => intro ev h; simp [updateTrace] at h
  | cons f fs ih =>
    intro ev h
    simp only [updateTrace, List.flatMap_cons] at h
    rcases List.mem_append.mp h with h | h
    · rcases List.mem_cons.mp h with rfl | h
      · exact Or.inl ⟨applyPath req f.path, rfl⟩
      · split at h
        · simp at h
        · rcases List.mem_singleton.mp h with rfl
          exact Or.inr ⟨applyPath req f.path, rfl⟩
    · exact ih ev h

theorem precondLoop_ok_no_raise (req : MoveReq) :
    ∀ (files kept : List FileModel),
    (precondLoop req files).2 = some kept →
    ∀ e, Ev.raise e ∉ (precondLoop req files).1 := by
  intro files
  induction files with
  | nil => intro kept _ e h; simp [precondLoop] at h
  | cons f fs ih =>
    intro kept hk e h
    rcases hc : fileCheck req f with _ | e2 <;>
      simp only [precondLoop, hc] at hk h
    · rcases List.mem_cons.mp h with h | h
      · simp at h
      · rcases ho : (precondLoop req fs).2 with _ | ks
        · rw [ho] at hk; simp at hk
        · exact ih ks ho e h
    · simp at hk

theorem precondLoop_raise (req : MoveReq) (e : MFError) :
    ∀ (pre : List FileModel) (tgt : FileModel) (post : List FileModel),
    (∀ f ∈ pre, fileCheck req f = none) →
    fileCheck req tgt = some e →
    (precondLoop req (pre ++ tgt :: post)).1
      = pre.map (fun f => Ev.parse f.path) ++ [Ev.parse tgt.path, Ev.raise e] ∧
    (precondLoop req (pre ++ tgt :: post)).2 = none := by
  intro pre
  induction pre with
  | nil =>
    intro tgt post _ htgt
    simp [precondLoop, htgt]
  | cons f fs ih =>
    intro tgt post hpre htgt
    have hf : fileCheck req f = none := hpre f (by simp)
    have ihh := ih tgt post (fun x hx => hpre x (by simp [hx])) htgt
    simp only [List.cons_append, precondLoop, hf, ihh.1, ihh.2]
    simpa using ihh

/-! ## C2: precondition failures are raised before any write -/

/-- When the target file sits in the target package, every constructor of
the file is folded; if there is at least one and all have parameters, the
empty-constructor flag ends false. -/
theorem emptyCtorFold_false (req : MoveReq) (pkg : String)
    (hpkg : pkg = req.target_package) :
    ∀ (l : List (String × Bool)) (b : Bool), l ≠ [] →
    (∀ c ∈ l, c.2 = true) →
    l.foldl (emptyCtorStep req pkg) (b, false) = (false, false) := by
  intro l
  induction l with
  | nil => intro b h _; exact absurd rfl h
  | cons c rest ih =>
    intro b _ hall
    have hc2 : c.2 = true := hall c (by simp)
    have hstep : emptyCtorStep req pkg (b, false) c = (false, false) := by
      simp [emptyCtorStep, hpkg, hc2]
    rw [List.foldl_cons, hstep]
    cases rest with
    | nil => simp
    | cons d ds =>
      exact ih false (by simp) (fun x hx => hall x (by simp [hx]))

theorem preEmptyConstructor_false (req : MoveReq) (f : FileModel)
    (hpkg : f.packageName = req.target_package)
    (hne : ctorEntries f ≠ [])
    (hall : ∀ c ∈ ctorEntries f, c.2 = true) :
    preEmptyConstructor req f = false := by
  unfold preEmptyConstructor
  rw [emptyCtorFold_false req f.packageName hpkg (ctorEntries f) true hne hall]

/-- C2 amended: first, whenever the transfer pass raises any typed
failure, its trace contains no write at all, because every raise happens in
the precondition loop and every write happens in the rewrite loop which
runs only after the precondition loop succeeded on the whole project;
second, when every file ahead of the target file passes its checks and the
target-class file of the target package exists, has no duplicate field, and
declares at least one constructor while every constructor declared anywhere
in that file is parameterized, the transfer pass raises
TargetNoEmptyConstructor and writes nothing.  The condition is file-wide,
not class-wide: the guard of enterConstructorDeclaration (line 463) joins
its two mismatch tests with and, so inside the target file the constructors
of sibling classes also feed the flag, and a parameterless constructor of a
sibling class suppresses the raise (see the counterexample). -/
theorem C2_precondition_before_writes :
    (∀ (req : MoveReq) (files : List FileModel) (e : MFError),
      Ev.raise e ∈ (transferTrace req files).1 →
      ∀ p, Ev.write p ∉ (transferTrace req files).1) ∧
    (∀ (req : MoveReq) (pre : List FileModel) (tgt : FileModel)
        (post : List FileModel),
      (∀ f ∈ pre, fileCheck req f = none) →
      pathName tgt.path ≠ req.src_class ++ ".java" →
      pathName tgt.path = req.target_class ++ ".java" →
      tgt.packageName = req.target_package →
      preTargetExists req tgt = true →
      preDuplicateField req tgt = false →
      ctorEntries tgt ≠ [] →
      (∀ c ∈ ctorEntries tgt, c.2 = true) →
      Ev.raise MFError.targetNoEmptyConstructor
          ∈ (transferTrace req (pre ++ tgt :: post)).1 ∧
      ∀ p, Ev.write p ∉ (transferTrace req (pre ++ tgt :: post)).1) := by
  have hgen : ∀ (req : MoveReq) (files : List FileModel) (e : MFError),
      Ev.raise e ∈ (transferTrace req files).1 →
      ∀ p, Ev.write p ∉ (transferTrace req files).1 := by
    intro req files e hr p hw
    rcases hpc : precondLoop req files with ⟨evs, ko⟩
    rcases ko with _ | kept
    · simp only [transferTrace, hpc] at hr hw
      rcases precondLoop_events req files (Ev.write p) (by rw [hpc]; exact hw)
        with ⟨q, hq⟩ | ⟨e2, hq⟩ <;> cases hq
    · simp only [transferTrace, hpc] at hr hw
      rcases List.mem_append.mp hr with h | h
      · have := precondLoop_ok_no_raise req files kept (by rw [hpc]) e
        rw [hpc] at this
        exact this h
      · rcases migrateLoop_events req none kept (Ev.raise e) h
          with ⟨q, hq⟩ | ⟨q, hq⟩ <;> cases hq
  refine ⟨hgen, ?_⟩
  intro req pre tgt post hpre hnotsrc hname hpkg hexists hdup hne hall
  have hcheck : fileCheck req tgt = some MFError.targetNoEmptyConstructor := by
    unfold fileCheck
    rw [if_neg, if_pos ⟨hname, hpkg⟩]
    · rw [if_neg (by simp [hexists]), if_neg (by simp [hdup]),
        if_pos (preEmptyConstructor_false req tgt hpkg hne hall)]
    · rintro ⟨h1, h2⟩
      exact hnotsrc h1
  have hloop := precondLoop_raise req MFError.targetNoEmptyConstructor pre tgt
    post hpre hcheck
  have htrace : (transferTrace req (pre ++ tgt :: post)).1
      = (precondLoop req (pre ++ tgt :: post)).1 := by
    rcases hpc : precondLoop req (pre ++ tgt :: post) with ⟨evs, ko⟩
    have : ko = none := by
      have := hloop.2
      rw [hpc] at this
      exact this
    subst this
    simp [transferTrace, hpc]
  constructor
  · rw [htrace, hloop.1]
    simp
  · intro p hw
    rw [htrace] at hw
    rcases precondLoop_events req (pre ++ tgt :: post) (Ev.write p) hw
      with ⟨q, hq⟩ | ⟨e2, hq⟩ <;> cases hq

def c2Req : MoveReq :=
  { src_package := "source", src_class := "Source", field_name := "a",
    target_package := "target", target_class := "Target", overwrite := false }

def c2Field : JField :=
  { name := "a", datatype := "int", modifiers := ["private"] }

def c2SrcClass : ClassDecl :=
  { isPublic := true, name := "Source", typeDeclStart := 0, bodyStart := 4,
    bodyStop := 12,
    fieldDecls := [{ field := c2Field, declStart := 5, declStop := 8 }],
    methods := [], constructors := [] }

def c2SrcFile : FileModel :=
  { path := "proj/Source.java", packageName := "source",
    importsSource := false, hasInnerClass := false, isInterface := false,
    classes := [c2SrcClass], callSites := [] }

def c2TgtCtor : MethodModel :=
  { name := "Target", parameters := [("int", "x")], body := [],
    formalStop := 6, ctxStart := 5, ctxStop := 11, declStart := 5,
    declStop := 11 }

def c2TgtClass : ClassDecl :=
  { isPublic := true, name := "Target", typeDeclStart := 0, bodyStart := 4,
    bodyStop := 12, fieldDecls := [], methods := [],
    constructors := [c2TgtCtor] }

def c2TgtFile : FileModel :=
  { path := "proj/Target.java", packageName := "target",
    importsSource := false, hasInnerClass := false, isInterface := false,
    classes := [c2TgtClass], callSites := [] }

def c2HelperCtor : MethodModel :=
  { name := "Helper", parameters := [], body := [], formalStop := 20,
    ctxStart := 19, ctxStop := 25, declStart := 19, declStop := 25 }

def c2Helper : ClassDecl :=
  { isPublic := false, name := "Helper", typeDeclStart := 14, bodyStart := 16,
    bodyStop := 26, fieldDecls := [], methods := [],
    constructors := [c2HelperCtor] }

def c2TgtFileSib : FileModel :=
  { path := "proj/Target.java", packageName := "target",
    importsSource := false, hasInnerClass := false, isInterface := false,
    classes := [c2TgtClass, c2Helper], callSites := [] }

/-- C2 counterexample: the Target class of Target.java declares exactly one
constructor, with a parameter, so the claim demands a
TargetNoEmptyConstructor raise with no file written; but the sibling class
Helper of the same file declares a parameterless constructor, and because
enterConstructorDeclaration joins its two mismatch tests with and, the
sibling constructor satisfies the empty-constructor check inside the target
file.  The computed trace contains no raise at all and writes both files,
refuting the claim as stated at this concrete input. -/
theorem C2_counterexample :
    c2TgtClass.constructors.map (fun m => m.parameters.isEmpty) = [false] ∧
    (transferTrace c2Req [c2SrcFile, c2TgtFileSib]).1
      = [Ev.parse "proj/Source.java", Ev.parse "proj/Target.java",
         Ev.parse "proj/Source.java", Ev.write "proj/Source.java",
         Ev.parse "proj/Target.java", Ev.write "proj/Target.java"] := by
  refine ⟨by decide, by decide⟩

/-- C2 amended witness: a two-file project whose target-class file declares
a single constructor, parameterized, and no sibling constructors. -/
theorem C2_precondition_before_writes_witness :
    Ev.raise MFError.targetNoEmptyConstructor
        ∈ (transferTrace c2Req ([c2SrcFile] ++ c2TgtFile :: [])).1 ∧
    Ev.write "proj/Source.java"
        ∉ (transferTrace c2Req ([c2SrcFile] ++ c2TgtFile :: [])).1 := by
  have h := C2_precondition_before_writes.2 c2Req [c2SrcFile] c2TgtFile []
    (by decide) (by decide) (by decide) (by decide) (by decide) (by decide)
    (by decide) (by decide)
  exact ⟨h.1, h.2 "proj/Source.java"⟩

/-! ## C4: the field-candidate set is per-file, not project-wide -/

def c4Req : MoveReq :=
  { src_package := "source", src_class := "Source", field_name := "a",
    target_package := "target", target_class := "Target", overwrite := false }

def c4FieldS : JField :=
  { name := "s", datatype := "Source", modifiers := ["private"] }

def c4ClassA : ClassDecl :=
  { isPublic := true, name := "A", typeDeclStart := 0, bodyStart := 2,
    bodyStop := 8,
    fieldDecls := [{ field := c4FieldS, declStart := 3, declStop := 6 }],
    methods := [], constructors := [] }

def c4FileA : FileModel :=
  { path := "proj/A.java", packageName := "p", importsSource := false,
    hasInnerClass := false, isInterface := false, classes := [c4ClassA],
    callSites := [] }

def c4ClassB : ClassDecl :=
  { isPublic := true, name := "B", typeDeclStart := 0, bodyStart := 2,
    bodyStop := 4, fieldDecls := [], methods := [], constructors := [] }

def c4FileB : FileModel :=
  { path := "proj/B.java", packageName := "p", importsSource := false,
    hasInnerClass := false, isInterface := false, classes := [c4ClassB],
    callSites := [] }

/-- C4 counterexample: the field s of declared type Source lives in
A.java, yet when B.java is rewritten its candidate set is empty: the
candidate set is rebuilt per file from that file alone, so it does not
contain every matching field of the whole corpus as the claim states. -/
theorem C4_counterexample :
    (transferTrace c4Req [c4FileA, c4FileB]).2.map
        (fun r => (r.file.path, r.candidates))
      = [("proj/A.java", ["s"]), ("proj/B.java", [])] ∧
    "s" ∈ fieldCandidates c4Req c4FileA := by
  refine ⟨by decide, by decide⟩

/-- C4 amended: the candidate set used while rewriting each file is exactly
the set of fields declared in that same file whose declared type equals the
source class name, rather than a project-wide set. -/
theorem C4_per_file_candidates (req : MoveReq) (fld : Option JField)
    (files : List FileModel) :
    (migrateLoop req fld files).2.map (fun r => r.candidates)
      = files.map (fieldCandidates req) := by
  induction files generalizing fld with
  | nil => rfl
  | cons f fs ih => simp [migrateLoop, ih]

/-! ## C9: which files are written -/

def c9Req : MoveReq :=
  { src_package := "source", src_class := "Source", field_name := "a",
    target_package := "target", target_class := "Target", overwrite := false }

def c9Class : ClassDecl :=
  { isPublic := false, name := "C", typeDeclStart := 0, bodyStart := 2,
    bodyStop := 4, fieldDecls := [], methods := [], constructors := [] }

def c9File : FileModel :=
  { path := "p/C.java", packageName := "p", importsSource := false,
    hasInnerClass := false, isInterface := false, classes := [c9Class],
    callSites := [] }

def c9UpdFile : FileModel :=
  { path := "u/D.java", packageName := "u", importsSource := false,
    hasInnerClass := false, isInterface := false, classes := [],
    callSites := [CallSite.methodCall false false "m" false 3] }

/-- C9 counterexample: C.java declares only a non-public class, so its
field-migration walk queues no operation and its buffer stays unmodified;
the transfer pass writes it anyway, because the modified check before the
save (line 700) is commented out.  This refutes the claim for the
field-migration pass. -/
theorem C9_counterexample :
    Ev.write "p/C.java" ∈ (transferTrace c9Req [c9File]).1 ∧
    ∀ r ∈ (transferTrace c9Req [c9File]).2, r.st.ops = [] := by
  refine ⟨by decide, by decide⟩

theorem migrateLoop_write_mem (req : MoveReq) :
    ∀ (fld : Option JField) (files : List FileModel) (r : FileResult),
    r ∈ (migrateLoop req fld files).2 →
    Ev.write r.file.path ∈ (migrateLoop req fld files).1 := by
  intro fld files
  induction files generalizing fld with
  | nil => intro r h; simp [migrateLoop] at h
  | cons f fs ih =>
    intro r h
    simp only [migrateLoop] at h ⊢
    rcases List.mem_cons.mp h with rfl | h
    · simp
    · exact List.mem_cons_of_mem _ (List.mem_cons_of_mem _ (ih _ r h))

/-- C9 amended: in the call-site propagation pass a file is written only
when its MethodUsageListener walk queued at least one operation (the
modified flag); in the field-migration pass, by contrast, every file that
survives the precondition filtering is written unconditionally, whether or
not its buffer queued any operation. -/
theorem C9_write_policy :
    (∀ (req : MoveReq) (names : List String) (files : List FileModel)
        (p : String),
      Ev.write p ∈ updateTrace req names files →
      ∃ f ∈ files, applyPath req f.path = p ∧
        methodUsageWalk names req.target_class f.callSites ≠ []) ∧
    (∀ (req : MoveReq) (files : List FileModel) (r : FileResult),
      r ∈ (transferTrace req files).2 →
      Ev.write r.file.path ∈ (transferTrace req files).1) := by
  constructor
  · intro req names files
    induction files with
    | nil => intro p h; simp [updateTrace] at h
    | cons f fs ih =>
      intro p h
      simp only [updateTrace, List.flatMap_cons] at h
      rcases List.mem_append.mp h with h | h
      · rcases List.mem_cons.mp h with h | h
        · cases h
        · by_cases hw : methodUsageWalk names req.target_class f.callSites = []
          · rw [if_pos hw] at h
            simp at h
          · rw [if_neg hw] at h
            rcases List.mem_singleton.mp h with h
            exact ⟨f, by simp, (Ev.write.injEq _ _).mp h.symm, hw⟩
      · rcases ih p h with ⟨g, hg, hgp, hgw⟩
        exact ⟨g, List.mem_cons_of_mem _ hg, hgp, hgw⟩
  · intro req files r h
    rcases hpc : precondLoop req files with ⟨evs, ko⟩
    rcases ko with _ | kept
    · simp only [transferTrace, hpc] at h
      simp at h
    · simp only [transferTrace, hpc] at h ⊢
      exact List.mem_append_right _ (migrateLoop_write_mem req none kept r h)

/-- C9 amended witness: a call-site file whose walk queues an operation,
and the unmodified transfer-pass file of the counterexample. -/
theorem C9_write_policy_witness :
    (∃ f ∈ [c9UpdFile], applyPath c9Req f.path = "u/D.java.rewritten.java" ∧
      methodUsageWalk ["m"] c9Req.target_class f.callSites ≠ []) ∧
    Ev.write (FileResult.mk c9File (fieldCandidates c9Req c9File)
        (fieldUsageWalk c9Req (fieldCandidates c9Req c9File) none
          c9File)).file.path
      ∈ (transferTrace c9Req [c9File]).1 := by
  constructor
  · exact C9_write_policy.1 c9Req ["m"] [c9UpdFile] "u/D.java.rewritten.java"
      (by decide)
  · exact C9_write_policy.2 c9Req [c9File]
      (FileResult.mk c9File (fieldCandidates c9Req c9File)
        (fieldUsageWalk c9Req (fieldCandidates c9Req c9File) none c9File))
      (by decide)

/-! ## C10: clean_up_dir runs before everything else -/

theorem updateTrace_no_delete (req : MoveReq) (names : List String)
    (files : List FileModel) : ∀ p, Ev.delete p ∉ updateTrace req names files := by
  intro p h
  rcases updateTrace_events req names files (Ev.delete p) h with
    ⟨q, hq⟩ | ⟨q, hq⟩ <;> cases hq

theorem transferTrace_no_delete (req : MoveReq) (files : List FileModel) :
    ∀ p, Ev.delete p ∉ (transferTrace req files).1 := by
  intro p h
  rcases hpc : precondLoop req files with ⟨evs, ko⟩
  rcases ko with _ | kept
  · simp only [transferTrace, hpc] at h
    rcases precondLoop_events req files (Ev.delete p) (by rw [hpc]; exact h)
      with ⟨q, hq⟩ | ⟨e, hq⟩ <;> cases hq
  · simp only [transferTrace, hpc] at h
    rcases List.mem_append.mp h with h | h
    · rcases precondLoop_events req files (Ev.delete p) (by rw [hpc]; exact h)
        with ⟨q, hq⟩ | ⟨e, hq⟩ <;> cases hq
    · rcases migrateLoop_events req none kept (Ev.delete p) h with
        ⟨q, hq⟩ | ⟨q, hq⟩ <;> cases hq

theorem mem_pyInsert (i : Nat) (x y : α) (l : List α)
    (h : y ∈ pyInsert i x l) : y = x ∨ y ∈ l := by
  unfold pyInsert at h
  split at h
  · rcases List.mem_append.mp h with h | h
    · exact Or.inr h
    · exact Or.inl (List.mem_singleton.mp h)
  · rcases List.mem_append.mp h with h | h
    · exact Or.inr (List.take_subset _ _ h)
    · rcases List.mem_cons.mp h with rfl | h
      · exact Or.inl rfl
      · exact Or.inr (List.drop_subset _ _ h)

theorem cfoLoop_subset (srcName tgtName : String) (nm : α → String) :
    ∀ (fuel i : Nat) (files : List α) (x : α),
    x ∈ cfoLoop srcName tgtName nm i fuel files → x ∈ files := by
  intro fuel
  induction fuel with
  | zero => intro i files x h; simpa [cfoLoop] using h
  | succ n ih =>
    intro i files x h
    simp only [cfoLoop] at h
    split at h
    case isTrue hlt =>
      have h2 := ih (i + 1) _ x h
      split at h2
      · rcases mem_pyInsert _ _ _ _ h2 with rfl | h3
        · exact List.get_mem files i hlt
        · exact List.eraseIdx_subset _ _ h3
      · split at h2
        · rcases mem_pyInsert _ _ _ _ h2 with rfl | h3
          · exact List.get_mem files i hlt
          · exact List.eraseIdx_subset _ _ h3
        · exact h2
    case isFalse hlt => exact h

theorem change_file_order_subset (src tgt : String) (nm : α → String)
    (files : List α) (x : α)
    (h : x ∈ change_file_order src tgt nm files) : x ∈ files :=
  cfoLoop_subset (src ++ ".java") (tgt ++ ".java") nm files.length 0 files x h

theorem migrateLoop_result_mem (req : MoveReq) :
    ∀ (fld : Option JField) (files : List FileModel) (r : FileResult),
    r ∈ (migrateLoop req fld files).2 → r.file ∈ files := by
  intro fld files
  induction files generalizing fld with
  | nil => intro r h; simp [migrateLoop] at h
  | cons f fs ih =>
    intro r h
    simp only [migrateLoop] at h
    rcases List.mem_cons.mp h with rfl | h
    · simp
    · exact List.mem_cons_of_mem _ (ih _ r h)

theorem precondLoop_kept_subset (req : MoveReq) :
    ∀ (files kept : List FileModel),
    (precondLoop req files).2 = some kept → ∀ x ∈ kept, x ∈ files := by
  intro files
  induction files with
  | nil =>
    intro kept hk x hx
    have hk2 : some ([] : List FileModel) = some kept := hk
    rcases Option.some.inj hk2 with rfl
    simp at hx
  | cons f fs ih =>
    intro kept hk x hx
    rcases hc : fileCheck req f with _ | e <;>
      simp only [precondLoop, hc] at hk
    · rcases ho : (precondLoop req fs).2 with _ | ks
      · rw [ho] at hk; simp at hk
      · rw [ho] at hk
        simp only [Option.map_some'] at hk
        rcases Option.some.inj hk with rfl
        by_cases hkeep : keepFile f = true
        · rw [if_pos hkeep] at hx
          rcases List.mem_cons.mp hx with rfl | hx
          · simp
          · exact List.mem_cons_of_mem _ (ih ks ho x hx)
        · rw [if_neg hkeep] at hx
          exact List.mem_cons_of_mem _ (ih ks ho x hx)
    · simp at hk

theorem transferTrace_result_mem (req : MoveReq) (files : List FileModel)
    (r : FileResult) (h : r ∈ (transferTrace req files).2) :
    r.file ∈ files := by
  rcases hpc : precondLoop req files with ⟨evs, ko⟩
  rcases ko with _ | kept
  · simp only [transferTrace, hpc] at h
    simp at h
  · simp only [transferTrace, hpc] at h
    exact precondLoop_kept_subset req files kept (by rw [hpc]) r.file
      (migrateLoop_result_mem req none kept r h)

/-- C10: the trace of refactor opens with exactly one delete per discovered
file whose path contains the substring rewritten.java, in discovery order;
no delete occurs anywhere later in the trace; and every file the transfer
pass then processes comes from the cleaned list, so its path does not
contain that substring. -/
theorem C10_cleanup_first (req : MoveReq) (files : List FileModel) :
    (∃ rest, refactorTrace req files
        = (files.filter (fun f => pyInStr "rewritten.java" f.path)).map
            (fun f => Ev.delete f.path) ++ rest ∧
        ∀ p, Ev.delete p ∉ rest) ∧
    (∀ r ∈ (transferTrace req (change_file_order req.src_class
        req.target_class (fun f => f.path)
        (files.filter (fun f => !pyInStr "rewritten.java" f.path)))).2,
      pyInStr "rewritten.java" r.file.path = false) := by
  constructor
  · refine ⟨(if check_file_exists req
        (files.filter (fun f => !pyInStr "rewritten.java" f.path)) = false
      then [Ev.raise MFError.fileNotFoundError]
      else
        (transferTrace req (change_file_order req.src_class req.target_class
            (fun f => f.path)
            (files.filter (fun f => !pyInStr "rewritten.java" f.path)))).1 ++
          updateTrace req
            (transferMethods (transferTrace req (change_file_order
              req.src_class req.target_class (fun f => f.path)
              (files.filter (fun f => !pyInStr "rewritten.java" f.path)))).2)
            ((transferTrace req (change_file_order req.src_class
              req.target_class (fun f => f.path)
              (files.filter (fun f => !pyInStr "rewritten.java" f.path)))).2.map
              (fun r => r.file))), rfl, ?_⟩
    intro p hp
    split at hp
    · simp at hp
    · rcases List.mem_append.mp hp with h | h
      · exact transferTrace_no_delete req _ p h
      · exact updateTrace_no_delete req _ _ p h
  · intro r hr
    have hmem := transferTrace_result_mem req _ r hr
    have hcl := change_file_order_subset req.src_class req.target_class
      (fun f => f.path) _ r.file hmem
    have hprop := (List.mem_filter.mp hcl).2
    simpa using hprop

def c10Req : MoveReq :=
  { src_package := "p", src_class := "Source", field_name := "a",
    target_package := "p", target_class := "Target", overwrite := false }

def c10Rew : FileModel :=
  { path := "p/Old.java.rewritten.java", packageName := "p",
    importsSource := false, hasInnerClass := false, isInterface := false,
    classes := [], callSites := [] }

def c10Fresh : FileModel :=
  { path := "p/C.java", packageName := "p", importsSource := false,
    hasInnerClass := false, isInterface := false, classes := [],
    callSites := [] }

/-- C10 witness: a leftover rewritten file next to a fresh file; the file
the transfer pass processes is the fresh one. -/
theorem C10_cleanup_first_witness :
    pyInStr "rewritten.java"
      (FileResult.mk c10Fresh (fieldCandidates c10Req c10Fresh)
        (fieldUsageWalk c10Req (fieldCandidates c10Req c10Fresh) none
          c10Fresh)).file.path = false :=
  (C10_cleanup_first c10Req [c10Rew, c10Fresh]).2
    (FileResult.mk c10Fresh (fieldCandidates c10Req c10Fresh)
      (fieldUsageWalk c10Req (fieldCandidates c10Req c10Fresh) none
        c10Fresh))
    (by decide)
